import Mathlib

/-! Shallow embedding of src/BookList.cpp: a Book value type with quoted
comma-separated text serialization and a fixed-capacity BookList container,
together with a verification of the specification's claims about them.

Modelling conventions:
* C++ std::string is Lean String; machine integers (std::size_t, unsigned)
  are Nat.
* double is modelled as an exact decimal number (structure Dec, with value
  num / 10 ^ exp); every double the program manipulates is produced by
  decimal parsing or decimal formatting, so the exact-decimal model covers
  the observable behavior.
* std::istream is modelled as IStr: the remaining characters plus a failure
  flag (failbit/badbit).  An eofbit alone does not make a stream falsy in
  C++, and is subsumed here by an empty data list with fail = false.
-/

/-- Whitespace test matching std::isspace in the default locale, used by
formatted stream extraction to skip leading whitespace. -/
def isWS (c : Char) : Bool :=
  c == ' ' || c == '\t' || c == '\n' || c == '\r' || c == '\x0b' || c == '\x0c'

/-- Drop leading whitespace, as the formatted-input sentry does. -/
def skipWS (l : List Char) : List Char :=
  l.dropWhile isWS

/-- Model of a std::istream over in-memory text. -/
structure IStr where
  data : List Char
  fail : Bool
  deriving DecidableEq

/-- Exact decimal number with value num / 10 ^ exp, modelling the C++
double price.  The representation is not canonical; all comparisons go
through cross multiplication. -/
structure Dec where
  num : ℤ
  exp : ℕ
  deriving DecidableEq

/-- Difference of two decimal values (exact). -/
def Dec.sub (a b : Dec) : Dec :=
  ⟨a.num * 10 ^ b.exp - b.num * 10 ^ a.exp, a.exp + b.exp⟩

/-- Absolute value of a decimal, modelling std::abs on double. -/
def Dec.abs (a : Dec) : Dec :=
  ⟨if a.num < 0 then -a.num else a.num, a.exp⟩

/-- Value comparison a < b on decimals, modelling double comparison. -/
def Dec.blt (a b : Dec) : Bool :=
  decide (a.num * 10 ^ b.exp < b.num * 10 ^ a.exp)

/-- Value equality a == b on decimals, modelling exact double equality
(the comparison BookList::find performs on prices). -/
def Dec.beqv (a b : Dec) : Bool :=
  decide (a.num * 10 ^ b.exp = b.num * 10 ^ a.exp)

/-- EPSILON from the anonymous namespace of BookList.cpp: 1.0E-4. -/
def EPSILON : Dec := ⟨1, 4⟩

/-- Book record; fields _isbn, _title, _author, _price (BookList.hpp). -/
structure Book where
  isbn : String
  title : String
  author : String
  price : Dec
  deriving DecidableEq

/-- Modelled from the spec: Book's default constructor is declared in
BookList.hpp, which is not part of src/; per spec section 3 a Book may be
"default-constructed with empty strings / zero price". -/
instance : Inhabited Book := ⟨⟨"", "", "", ⟨0, 0⟩⟩⟩

/-- Book operator== (BookList.cpp lines 110-117): exact comparison of the
three string fields, and price within EPSILON. -/
def bookEq (lhs rhs : Book) : Bool :=
  lhs.isbn == rhs.isbn && lhs.title == rhs.title && lhs.author == rhs.author &&
    Dec.blt (Dec.abs (Dec.sub lhs.price rhs.price)) EPSILON

/-- Extraction of a single char (stream >> delimiter): skip whitespace and
take one character; on end of input set failbit and leave the target
unchanged. -/
def readChar (s : IStr) (c : Char) : IStr × Char :=
  if s.fail then (s, c)
  else
    match skipWS s.data with
    | [] => (⟨[], true⟩, c)
    | d :: rest => (⟨rest, false⟩, d)

/-- Scan loop of std::quoted extraction after the opening delimiter has been
consumed: characters are appended to the accumulator; the escape character
backslash causes the next character to be appended unconditionally; an
unescaped double quote ends the scan; end of input before the closing quote
sets failbit (the partial content read so far remains in the target). -/
def qscan : List Char → List Char → IStr × List Char
  | [], acc => (⟨[], true⟩, acc.reverse)
  | c :: rest, acc =>
    if c = '\\' then
      match rest with
      | [] => (⟨[], true⟩, acc.reverse)
      | e :: rest2 => qscan rest2 (e :: acc)
    else if c = '"' then (⟨rest, false⟩, acc.reverse)
    else qscan rest (c :: acc)

/-- Extraction via std::quoted (stream >> std::quoted(str)): if the first
non-whitespace character is a double quote, read until the matching
unescaped quote; otherwise fall back to plain string extraction of one
whitespace-delimited token. -/
def readQuoted (s : IStr) (v : String) : IStr × String :=
  if s.fail then (s, v)
  else
    match skipWS s.data with
    | [] => (⟨[], true⟩, v)
    | c :: rest =>
      if c = '"' then
        let r := qscan rest []
        (r.1, String.mk r.2)
      else
        let tok := (c :: rest).takeWhile (fun x => !isWS x)
        (⟨(c :: rest).dropWhile (fun x => !isWS x), false⟩, String.mk tok)

/-- Numeric value of a list of decimal digit characters. -/
def digitsVal (l : List Char) : ℕ :=
  l.foldl (fun a c => a * 10 + (c.toNat - 48)) 0

/-- Extraction of a double (stream >> price): skip whitespace, then parse an
optional sign, integer digits, an optional fraction, and an optional
exponent; fail (storing zero, as C++11 does) when no mantissa digit is
present. -/
def readDouble (s : IStr) (v : Dec) : IStr × Dec :=
  if s.fail then (s, v)
  else
    let d := skipWS s.data
    let neg := d.head? == some '-'
    let d1 := if neg || d.head? == some '+' then d.tail else d
    let ip := d1.takeWhile Char.isDigit
    let d2 := d1.dropWhile Char.isDigit
    let hasDot := d2.head? == some '.'
    let fp := if hasDot then d2.tail.takeWhile Char.isDigit else []
    let d3 := if hasDot then d2.tail.dropWhile Char.isDigit else d2
    if ip.isEmpty && fp.isEmpty then (⟨d, true⟩, ⟨0, 0⟩)
    else
      let hasE := d3.head? == some 'e' || d3.head? == some 'E'
      let d4 := if hasE then d3.tail else d3
      let eNeg := d4.head? == some '-'
      let d5 := if eNeg || d4.head? == some '+' then d4.tail else d4
      let eds := d5.takeWhile Char.isDigit
      let useE := hasE && !eds.isEmpty
      let rest := if useE then d5.dropWhile Char.isDigit else d3
      let mant : ℕ := digitsVal (ip ++ fp)
      let ev : ℤ := if useE then (if eNeg then -(digitsVal eds : ℤ) else (digitsVal eds : ℤ)) else 0
      let t : ℤ := ev - (fp.length : ℤ)
      let num0 : ℤ := if neg then -(mant : ℤ) else (mant : ℤ)
      let val : Dec := if 0 ≤ t then ⟨num0 * 10 ^ t.toNat, 0⟩ else ⟨num0, (-t).toNat⟩
      (⟨rest, false⟩, val)

/-- Book operator>> (BookList.cpp lines 77-95): extract the three quoted
string fields and the price into a scratch record (workingItem), reading a
single unvalidated character where each comma delimiter is expected, and
commit the scratch record to the target only if the whole extraction left
the stream in a good state. -/
def readBook (s : IStr) (b : Book) : IStr × Book :=
  let q1 := readQuoted s ""
  let c1 := readChar q1.1 ','
  let q2 := readQuoted c1.1 ""
  let c2 := readChar q2.1 c1.2
  let q3 := readQuoted c2.1 ""
  let c3 := readChar q3.1 c2.2
  let p := readDouble c3.1 ⟨0, 0⟩
  if p.1.fail then (p.1, b) else (p.1, ⟨q1.2, q2.2, q3.2, p.2⟩)

/-- Escape of one character under std::quoted output: the delimiter (double
quote) and the escape character (backslash) are preceded by a backslash. -/
def escChar (c : Char) : List Char :=
  if c = '"' || c = '\\' then ['\\', c] else [c]

/-- Escape of a character list under std::quoted output. -/
def escList : List Char → List Char
  | [] => []
  | c :: t => escChar c ++ escList t

/-- Rendering of one string field by std::quoted: an opening double quote,
the escaped content, and a closing double quote. -/
def quoteOut (f : String) : List Char :=
  '"' :: (escList f.data ++ ['"'])

/-- Output field delimiter of Book operator<< : a comma and two spaces. -/
def outDelim : List Char := [',', ' ', ' ']

/-- Decimal digits of a natural number, most significant first (empty for
zero); the first argument is recursion fuel. -/
def natToDigits : ℕ → ℕ → List ℕ
  | 0, _ => []
  | f + 1, n => if n = 0 then [] else natToDigits f (n / 10) ++ [n % 10]

/-- Decimal digits of a natural number, most significant first. -/
def decDigits (n : ℕ) : List ℕ :=
  natToDigits (n + 1) n

/-- Character for one decimal digit. -/
def digitChar (d : ℕ) : Char :=
  Char.ofNat (48 + d)

/-- Characters for a digit list. -/
def digitsStr (l : List ℕ) : List Char :=
  l.map digitChar

/-- Remove trailing zero digits (the trailing-zero stripping of default
floating-point formatting). -/
def stripTZ (l : List ℕ) : List ℕ :=
  (l.reverse.dropWhile (fun d => d == 0)).reverse

/-- Exponent digits of scientific notation: at least two digits. -/
def expDigits (a : ℕ) : List Char :=
  if a < 10 then ['0', digitChar a] else digitsStr (decDigits a)

/-- Default ostream formatting of a double (stream << price): precision 6,
defaultfloat, i.e. the behavior of printf %.6g — round to six significant
digits, use fixed notation when the decimal exponent X satisfies
-4 ≤ X < 6 and scientific notation otherwise, stripping trailing
fractional zeros. -/
def priceOut (p : Dec) : String :=
  if p.num = 0 then "0"
  else
    let n := p.num.natAbs
    let ds := decDigits n
    let dD := ds.length
    let x0 : ℤ := (dD : ℤ) - 1 - (p.exp : ℤ)
    let mx : ℕ × ℤ :=
      if dD ≤ 6 then (n * 10 ^ (6 - dD), x0)
      else
        let pw := 10 ^ (dD - 6)
        let q := n / pw
        let r := n % pw
        let m0 := if pw ≤ 2 * r then q + 1 else q
        if m0 = 10 ^ 6 then (10 ^ 5, x0 + 1) else (m0, x0)
    let m := mx.1
    let x := mx.2
    let mds := decDigits m
    let sgn : List Char := if p.num < 0 then ['-'] else []
    let body : List Char :=
      if -4 ≤ x ∧ x < 6 then
        if 0 ≤ x then
          let k := x.toNat + 1
          let ipart := mds.take k
          let fpart := stripTZ (mds.drop k)
          digitsStr ipart ++ (if fpart.isEmpty then [] else '.' :: digitsStr fpart)
        else
          let zs := (-x).toNat - 1
          let fpart := stripTZ (List.replicate zs 0 ++ mds)
          '0' :: '.' :: digitsStr fpart
      else
        let fpart := stripTZ mds.tail
        (digitChar (mds.headD 0) :: (if fpart.isEmpty then [] else '.' :: digitsStr fpart))
          ++ ('e' :: (if 0 ≤ x then '+' else '-') :: expDigits x.natAbs)
    String.mk (sgn ++ body)

/-- Book operator<< (BookList.cpp lines 97-105) as a character list: the
three string fields rendered by std::quoted separated by ",  ", then the
price in default numeric formatting. -/
def writeBookL (b : Book) : List Char :=
  quoteOut b.isbn ++ outDelim ++ quoteOut b.title ++ outDelim ++
    quoteOut b.author ++ outDelim ++ (priceOut b.price).data

/-- Book operator<< as a String. -/
def writeBook (b : Book) : String :=
  String.mk (writeBookL b)

/-- BookList container (BookList.hpp / BookList.cpp): a fixed capacity, a
storage array of capacity Book slots, and the logical size
_books_array_size. -/
structure BookList where
  capacity : ℕ
  bookArray : List Book
  books_array_size : ℕ
  deriving DecidableEq

/-- BookList::size (BookList.cpp lines 190-193). -/
def BookList.size (L : BookList) : ℕ :=
  L.books_array_size

/-- Read of one storage slot (_bookArray[i], BookList::operator[]); an
out-of-contract index is modelled as the default Book. -/
def BookList.get (L : BookList) (i : ℕ) : Book :=
  L.bookArray.getD i default

/-- BookList constructor (BookList.cpp lines 159-161): capacity slots of
default-constructed Books, logical size zero. -/
def BookList.construct (cap : ℕ) : BookList :=
  ⟨cap, List.replicate cap default, 0⟩

/-- State of the local variable book after std::move(book) handed its
contents to the array slot: the moved-from strings are emptied and the
double member is simply copied (doubles have no move semantics). -/
def movedFrom (b : Book) : Book :=
  ⟨"", "", "", b.price⟩

/-- Loop of BookList operator>> (BookList.cpp lines 143-146):
while (stream && counter < capacity) (stream >> book;
arrayslot[counter++] = std::move(book)), with the remaining iteration
budget capacity - counter passed as fuel (so fuel = 0 means the
counter < capacity test failed).  Note the body stores the book and bumps
the counter even when the extraction failed. -/
def parseLoop : IStr → Book → List Book → ℕ → ℕ → IStr × List Book × ℕ
  | s, _, arr, counter, 0 => (s, arr, counter)
  | s, bk, arr, counter, f + 1 =>
    if s.fail then (s, arr, counter)
    else
      let r := readBook s bk
      parseLoop r.1 (movedFrom r.2) (arr.set counter r.2) (counter + 1) f

/-- BookList operator>> (BookList.cpp lines 138-154): run the read loop
from counter = 0, then set the logical size to the counter only when the
counter is strictly below the capacity. -/
def parseBulk (s : IStr) (L : BookList) : IStr × BookList :=
  let r := parseLoop s default L.bookArray 0 L.capacity
  (r.1, ⟨L.capacity, r.2.1,
    if r.2.2 < L.capacity then r.2.2 else L.books_array_size⟩)

/-- Number of iterations the operator>> loop performs on a given stream
with a given remaining capacity: zero once the stream is failed, and one
per body execution (including the one whose extraction fails). -/
def loopIters : IStr → ℕ → ℕ
  | _, 0 => 0
  | s, f + 1 => if s.fail then 0 else loopIters (readBook s default).1 f + 1

/-- Loop of BookList::operator+= (BookList.cpp lines 171-176):
while (size < capacity && i < rhs.size()) copy rhs[i] to the end; the fuel
is rhs.size() - i. -/
def appendLoop (cap : ℕ) (rhs : BookList) : List Book → ℕ → ℕ → ℕ → List Book × ℕ
  | arr, sz, _, 0 => (arr, sz)
  | arr, sz, i, f + 1 =>
    if sz < cap && i < rhs.size then
      appendLoop cap rhs (arr.set sz (rhs.get i)) (sz + 1) (i + 1) f
    else (arr, sz)

/-- BookList::operator+= (BookList.cpp lines 166-178). -/
def BookList.appendAll (L R : BookList) : BookList :=
  let r := appendLoop L.capacity R L.bookArray L.books_array_size 0 R.size
  ⟨L.capacity, r.1, r.2⟩

/-- Per-slot comparison performed by BookList::find (BookList.cpp lines
201-204): all four getters compared exactly, the price with exact double
equality rather than the EPSILON tolerance of Book operator==. -/
def findMatch (a b : Book) : Bool :=
  a.isbn == b.isbn && a.title == b.title && a.author == b.author &&
    Dec.beqv a.price b.price

/-- Loop of BookList::find from index i with fuel size - i. -/
def findGo (L : BookList) (b : Book) : ℕ → ℕ → ℕ
  | _, 0 => L.size
  | i, f + 1 => if findMatch (L.get i) b then i else findGo L b (i + 1) f

/-- BookList::find (BookList.cpp lines 195-209): first exact match in
storage order, or size() as the not-found sentinel. -/
def BookList.find (L : BookList) (b : Book) : ℕ :=
  findGo L b 0 L.size

/-- Loop of BookList::readInFile (BookList.cpp lines 224-226):
while ((inFile >> newBook) && (i < capacity)) store; note the extraction
runs before the bound test, so the book read when i = capacity is
discarded.  Fuel capacity + 1 - i bounds the iterations. -/
def readLoop (cap : ℕ) : IStr → Book → List Book → ℕ → ℕ → List Book × ℕ
  | _, _, arr, i, 0 => (arr, i)
  | s, bk, arr, i, f + 1 =>
    let r := readBook s bk
    if r.1.fail then (arr, i)
    else if i < cap then readLoop cap r.1 r.2 (arr.set i r.2) (i + 1) f
    else (arr, i)

/-- BookList::readInFile (BookList.cpp lines 218-228); the file system is
modelled as an optional file content, none meaning the open failed, which
leaves the ifstream failed so that every extraction fails. -/
def BookList.readInFile (L : BookList) (file : Option (List Char)) : BookList :=
  let s : IStr := match file with
    | none => ⟨[], true⟩
    | some content => ⟨content, false⟩
  let r := readLoop L.capacity s default L.bookArray 0 (L.capacity + 1)
  ⟨L.capacity, r.1, r.2⟩

/-- Sample record I1 as a Book value (price 1.5). -/
def bkA : Book := ⟨"I1", "T1", "A1", ⟨15, 1⟩⟩

/-- Sample record I2 as a Book value (price 2.5). -/
def bkB : Book := ⟨"I2", "T2", "A2", ⟨25, 1⟩⟩

/-- Text of sample record I1. -/
def recA : List Char := "\"I1\",  \"T1\",  \"A1\",  1.5".data

/-- Text of sample record I2. -/
def recB : List Char := "\"I2\",  \"T2\",  \"A2\",  2.5".data

/-- Text of sample record I3. -/
def recC : List Char := "\"I3\",  \"T3\",  \"A3\",  3.5".data

/-- Input with three well-formed records. -/
def stream3 : List Char := recA ++ '\n' :: recB ++ '\n' :: recC

/-- Input whose first record is well-formed and whose second record is
malformed: an unterminated quote. -/
def streamBad : List Char := recA ++ '\n' :: '"' :: 'X' :: []

/-- Book with price 9.99. -/
def bP1 : Book := ⟨"i", "t", "a", ⟨999, 2⟩⟩

/-- Book identical to bP1 except the price is 9.99001: within EPSILON of
9.99 but not exactly equal to it. -/
def bP2 : Book := ⟨"i", "t", "a", ⟨999001, 5⟩⟩

/-- Two-slot list holding bP1 then bP2. -/
def listP : BookList := ⟨2, [bP1, bP2], 2⟩

/-- States reachable from construction through the public mutating
operations: construct, append-all (operator+=), bulk parse (operator>>),
and load-from-file (readInFile). -/
inductive Reachable : BookList → Prop
  | construct (cap : ℕ) : Reachable (BookList.construct cap)
  | append (R : BookList) {L : BookList} : Reachable L → Reachable (L.appendAll R)
  | parse (s : IStr) {L : BookList} : Reachable L → Reachable (parseBulk s L).2
  | load (file : Option (List Char)) {L : BookList} :
      Reachable L → Reachable (L.readInFile file)

/-- Price round trip test: formatting the price with default precision-6
formatting and re-parsing it succeeds and lands within EPSILON of the
original value.  True for ordinary money amounts; false once the price
needs more than six significant digits. -/
def priceRT (p : Dec) : Bool :=
  !(readDouble ⟨(priceOut p).data, false⟩ ⟨0, 0⟩).1.fail &&
    Dec.blt (Dec.abs (Dec.sub (readDouble ⟨(priceOut p).data, false⟩ ⟨0, 0⟩).2 p)) EPSILON

/-- Book whose string fields contain quotes, backslashes and spaces. -/
def bW : Book := ⟨"AB\"C\\D", "T T", "A", ⟨999, 2⟩⟩

/-- Book whose price 1000000.5 does not survive precision-6 formatting. -/
def bBig : Book := ⟨"a", "b", "c", ⟨10000005, 1⟩⟩

/-- Book with an embedded double quote in the isbn. -/
def bQ : Book := ⟨"A\"B", "T", "U", ⟨5, 0⟩⟩

/-- Modelled from the spec: the quote-doubling rendering the spec describes
for one character ("embedded double-quote represented by doubling it"). -/
def escCharSpec (c : Char) : List Char :=
  if c = '"' then ['"', '"'] else [c]

/-- Modelled from the spec: quote-doubling rendering of a character list. -/
def escListSpec : List Char → List Char
  | [] => []
  | c :: t => escCharSpec c ++ escListSpec t

/-- Modelled from the spec: a string field rendered double-quoted with
embedded quotes doubled. -/
def quoteOutSpec (f : String) : List Char :=
  '"' :: (escListSpec f.data ++ ['"'])

/-- Modelled from the spec: the record rendering the spec describes, using
quote doubling for the string fields. -/
def writeBookSpecL (b : Book) : List Char :=
  quoteOutSpec b.isbn ++ outDelim ++ quoteOutSpec b.title ++ outDelim ++
    quoteOutSpec b.author ++ outDelim ++ (priceOut b.price).data

/-- The escaped pair backslash-quote occurs somewhere in the list. -/
def containsEsc (l : List Char) : Prop :=
  ∃ u v, l = u ++ '\\' :: '"' :: v

/-- Record text whose three comma positions hold an arbitrary separator
character d instead of a comma. -/
def recC9 (d : Char) : List Char :=
  '"' :: 'A' :: '"' :: d :: '"' :: 'B' :: '"' :: d :: '"' :: 'C' :: '"' :: d ::
    '9' :: '.' :: '9' :: '9' :: []

/-- The readBook stream result does not depend on the target book: the
target is only consulted for the value kept on failure. -/
theorem readBook_fst (s : IStr) (b1 b2 : Book) :
    (readBook s b1).1 = (readBook s b2).1 := by
  simp only [readBook]
  split <;> rfl

/-- Book extraction from an empty good stream fails and leaves the target
unchanged. -/
theorem readBook_empty (bk : Book) : readBook ⟨[], false⟩ bk = (⟨[], true⟩, bk) := rfl

/-- One parseLoop step on a failed stream exits immediately. -/
theorem parseLoop_fail (l : List Char) (bk : Book) (arr : List Book)
    (counter f : ℕ) :
    parseLoop ⟨l, true⟩ bk arr counter (f + 1) = (⟨l, true⟩, arr, counter) := by
  simp [parseLoop]

/-- The counter returned by parseLoop is the starting counter plus the
number of loop iterations performed. -/
theorem parseLoop_counter (f : ℕ) : ∀ (s : IStr) (bk : Book) (arr : List Book)
    (counter : ℕ), (parseLoop s bk arr counter f).2.2 = counter + loopIters s f := by
  induction f with
  | zero => intro s bk arr counter; simp [parseLoop, loopIters]
  | succ f ih =>
    intro s bk arr counter
    by_cases hs : s.fail
    · simp [parseLoop, loopIters, hs]
    · simp only [parseLoop, loopIters, hs, Bool.false_eq_true, if_false]
      rw [ih, readBook_fst s bk default]
      omega

/-- C1 (code evaluated at the failing input): on a capacity-3 list and an
input whose first record is valid and whose second is malformed, the code
retains the valid record at slot 0 but sets the logical size to 2, not 1:
the iteration whose extraction failed still stored a (moved-from) entry
and bumped the counter. -/
theorem c1_parse_bulk_counts_failed_read :
    (parseBulk ⟨streamBad, false⟩ (BookList.construct 3)).2.size = 2 ∧
    (parseBulk ⟨streamBad, false⟩ (BookList.construct 3)).2.get 0 = bkA := by decide

/-- C2 counterexample: parse-bulk of three well-formed records into a fresh
capacity-2 list leaves size() = 0, not 2, because the loop stopped exactly
at capacity and that path never writes the size member. -/
theorem c2_size_two_counterexample :
    ¬ (parseBulk ⟨stream3, false⟩ (BookList.construct 2)).2.size = 2 := by decide

/-- C2 amended: parse-bulk of a stream of 3 well-formed records into a
fresh BookList of capacity 2 copies exactly the first two records into
slots 0 and 1 and drops the third without marking any stream error, but
the logical size remains 0 (its prior value), because the loop stopped
exactly at capacity and that path does not update the size. -/
theorem c2_amended_exact_capacity :
    (parseBulk ⟨stream3, false⟩ (BookList.construct 2)).2.size = 0 ∧
    (parseBulk ⟨stream3, false⟩ (BookList.construct 2)).2.get 0 = bkA ∧
    (parseBulk ⟨stream3, false⟩ (BookList.construct 2)).2.get 1 = bkB ∧
    (parseBulk ⟨stream3, false⟩ (BookList.construct 2)).1.fail = false := by decide

/-- C3: after bulk parse, if the number of loop iterations is strictly
below the capacity the logical size becomes that iteration count, and if
the loop ran exactly capacity iterations the logical size keeps the value
it had before the operation. -/
theorem c3_size_update_rule (s : IStr) (L : BookList) :
    (loopIters s L.capacity < L.capacity →
      (parseBulk s L).2.size = loopIters s L.capacity) ∧
    (loopIters s L.capacity = L.capacity →
      (parseBulk s L).2.size = L.size) := by
  have hc := parseLoop_counter L.capacity s default L.bookArray 0
  constructor
  · intro h
    simp [parseBulk, BookList.size, hc, h]
  · intro h
    simp [parseBulk, BookList.size, hc, h]

/-- C3 witness: a one-record stream into a capacity-3 list runs two loop
iterations (one successful read, one failing read) and sets size to that
count. -/
theorem c3_size_update_rule_witness :
    (parseBulk ⟨recA, false⟩ (BookList.construct 3)).2.size =
      loopIters ⟨recA, false⟩ 3 :=
  (c3_size_update_rule ⟨recA, false⟩ (BookList.construct 3)).1 (by decide)

/-- C7: Book extraction is transactional; whenever the extraction leaves
the stream failed (any of the four fields failed to parse), the target
Book keeps exactly its previous value. -/
theorem c7_transactional_parse (s : IStr) (b : Book)
    (h : (readBook s b).1.fail = true) : (readBook s b).2 = b := by
  simp only [readBook] at h ⊢
  split at h
  · simp_all
  · simp_all

/-- C7 witness: a record with a non-numeric price fails and leaves a
pre-existing target book untouched. -/
theorem c7_transactional_parse_witness :
    ((readBook ⟨"\"X\",  \"Y\",  \"Z\",  oops".data, false⟩ bkA).1.fail = true) ∧
    (readBook ⟨"\"X\",  \"Y\",  \"Z\",  oops".data, false⟩ bkA).2 = bkA :=
  ⟨by decide, c7_transactional_parse _ bkA (by decide)⟩

/-- C10: on every fresh BookList of capacity at least 2, bulk parse from an
empty good stream yields logical size 1 with a default-constructed Book in
slot 0: the failed first read attempt still stores and counts an entry. -/
theorem parseLoop_empty_two (c : ℕ) (arr : List Book) :
    parseLoop ⟨[], false⟩ default arr 0 (c + 2) = (⟨[], true⟩, arr.set 0 default, 1) := by
  show parseLoop ⟨[], false⟩ default arr 0 ((c + 1) + 1) = _
  rw [parseLoop]
  simp only [readBook_empty, movedFrom, parseLoop_fail]
  simp

theorem c10_empty_stream_stores_default (cap : ℕ) (hcap : 2 ≤ cap) :
    (parseBulk ⟨[], false⟩ (BookList.construct cap)).2.size = 1 ∧
    (parseBulk ⟨[], false⟩ (BookList.construct cap)).2.get 0 = default := by
  obtain ⟨c, rfl⟩ : ∃ c, cap = c + 2 := ⟨cap - 2, by omega⟩
  constructor
  · show (if (parseLoop ⟨[], false⟩ default (List.replicate (c + 2) default)
        0 (c + 2)).2.2 < c + 2 then
          (parseLoop ⟨[], false⟩ default (List.replicate (c + 2) default)
            0 (c + 2)).2.2 else 0) = 1
    rw [parseLoop_empty_two]
    have h1 : (1 : ℕ) < c + 2 := by omega
    simp [h1]
  · show ((parseLoop ⟨[], false⟩ default (List.replicate (c + 2) default)
        0 (c + 2)).2.1).getD 0 default = default
    rw [parseLoop_empty_two]
    show ((List.replicate ((c + 1) + 1) default).set 0 default).getD 0 default = default
    rw [List.replicate_succ]
    simp [List.set, List.getD]

/-- C10 witness: the behavior at capacity 3. -/
theorem c10_empty_stream_stores_default_witness :
    2 ≤ 3 ∧ (parseBulk ⟨[], false⟩ (BookList.construct 3)).2.size = 1 :=
  ⟨by decide, (c10_empty_stream_stores_default 3 (by decide)).1⟩

/-- The find loop never returns an index beyond size. -/
theorem findGo_le (L : BookList) (b : Book) (f : ℕ) : ∀ i : ℕ,
    i + f = L.size → findGo L b i f ≤ L.size := by
  induction f with
  | zero => intro i _; simp [findGo]
  | succ f ih =>
    intro i hi
    by_cases hm : findMatch (L.get i) b
    · simp [findGo, hm]; omega
    · simp only [findGo, hm, Bool.false_eq_true, if_false]
      exact ih (i + 1) (by omega)

/-- No index below the one the find loop returns matches. -/
theorem findGo_before (L : BookList) (b : Book) (f : ℕ) : ∀ i : ℕ,
    i + f = L.size → (∀ j, j < i → findMatch (L.get j) b = false) →
    ∀ j, j < findGo L b i f → findMatch (L.get j) b = false := by
  induction f with
  | zero =>
    intro i hi hpre j hj
    simp only [findGo] at hj
    exact hpre j (by omega)
  | succ f ih =>
    intro i hi hpre j hj
    by_cases hm : findMatch (L.get i) b
    · simp only [findGo, hm, if_true] at hj
      exact hpre j hj
    · simp only [findGo, hm, Bool.false_eq_true, if_false] at hj
      refine ih (i + 1) (by omega) ?_ j hj
      intro k hk
      rcases Nat.lt_or_ge k i with h | h
      · exact hpre k h
      · have : k = i := by omega
        subst this
        simp [hm]

/-- When the find loop returns an index below size, that slot matches. -/
theorem findGo_found (L : BookList) (b : Book) (f : ℕ) : ∀ i : ℕ,
    i + f = L.size → findGo L b i f < L.size →
    findMatch (L.get (findGo L b i f)) b = true := by
  induction f with
  | zero => intro i hi hlt; simp [findGo] at hlt
  | succ f ih =>
    intro i hi hlt
    by_cases hm : findMatch (L.get i) b
    · simp [findGo, hm]
    · simp only [findGo, hm, Bool.false_eq_true, if_false] at hlt ⊢
      exact ih (i + 1) (by omega) hlt

/-- C5: find performs a linear scan of the logical range comparing all four
fields exactly (exact double comparison on the price): it returns at most
size(), every index below the returned one fails the exact comparison, a
returned index below size() matches exactly, and hence size() is the
not-found sentinel; moreover two books that Book operator== deems equal
(prices within EPSILON) are distinguished by find, as listP with prices
9.99 and 9.99001 shows. -/
theorem c5_find_exact_scan :
    (∀ (L : BookList) (b : Book),
      L.find b ≤ L.size ∧
      (∀ j, j < L.find b → findMatch (L.get j) b = false) ∧
      (L.find b < L.size → findMatch (L.get (L.find b)) b = true)) ∧
    (bookEq bP1 bP2 = true ∧ listP.find bP2 = 1 ∧ listP.find bP1 = 0) := by
  refine ⟨fun L b => ⟨?_, ?_, ?_⟩, by decide, by decide, by decide⟩
  · exact findGo_le L b L.size 0 (by omega)
  · exact findGo_before L b L.size 0 (by omega) (by omega)
  · exact findGo_found L b L.size 0 (by omega)

/-- C5 witness: instantiating the scan characterization on listP and the
book bP2 whose exact match sits at index 1. -/
theorem c5_find_exact_scan_witness :
    findMatch (listP.get (listP.find bP2)) bP2 = true :=
  (c5_find_exact_scan.1 listP bP2).2.2 (by decide)

/-- The append loop keeps the size within capacity. -/
theorem appendLoop_le (cap : ℕ) (R : BookList) (f : ℕ) :
    ∀ (arr : List Book) (sz i : ℕ), sz ≤ cap →
    (appendLoop cap R arr sz i f).2 ≤ cap := by
  induction f with
  | zero => intro arr sz i h; simpa [appendLoop] using h
  | succ f ih =>
    intro arr sz i h
    by_cases hc : sz < cap ∧ i < R.size
    · have hcond : (decide (sz < cap) && decide (i < R.size)) = true := by
        simp [hc.1, hc.2]
      simp only [appendLoop, hcond, if_true]
      exact ih _ (sz + 1) (i + 1) (by omega)
    · have : (decide (sz < cap) && decide (i < R.size)) = false := by
        rcases Decidable.not_and_iff_or_not.mp hc with h1 | h1 <;> simp [h1]
      simpa [appendLoop, this] using h

/-- append-all keeps the size within the left list's capacity. -/
theorem appendAll_le (L R : BookList) (h : L.size ≤ L.capacity) :
    (L.appendAll R).size ≤ L.capacity :=
  appendLoop_le L.capacity R R.size L.bookArray L.books_array_size 0 h

/-- The readInFile loop never counts past the capacity. -/
theorem readLoop_le (cap f : ℕ) : ∀ (s : IStr) (bk : Book) (arr : List Book)
    (i : ℕ), i ≤ cap → (readLoop cap s bk arr i f).2 ≤ cap := by
  induction f with
  | zero => intro s bk arr i h; simpa [readLoop] using h
  | succ f ih =>
    intro s bk arr i h
    simp only [readLoop]
    split
    · exact h
    · split
      · exact ih _ _ _ (i + 1) (by omega)
      · exact h

/-- Bulk parse preserves the size invariant. -/
theorem parseBulk_size_le (s : IStr) (L : BookList) (h : L.size ≤ L.capacity) :
    (parseBulk s L).2.size ≤ (parseBulk s L).2.capacity := by
  show (if (parseLoop s default L.bookArray 0 L.capacity).2.2 < L.capacity then
    (parseLoop s default L.bookArray 0 L.capacity).2.2 else L.books_array_size) ≤
      L.capacity
  split
  · omega
  · exact h

/-- C6: the invariant 0 ≤ size ≤ capacity holds in every BookList reachable
from construction through the public operations, and in particular
append-all never grows a list beyond its fixed capacity. -/
theorem c6_size_invariant :
    (∀ L : BookList, Reachable L → L.size ≤ L.capacity) ∧
    (∀ L R : BookList, L.size ≤ L.capacity →
      (L.appendAll R).size ≤ L.capacity) := by
  refine ⟨fun L hL => ?_, fun L R h => appendAll_le L R h⟩
  induction hL with
  | construct cap => simp [BookList.construct, BookList.size]
  | append R _ ih => exact appendAll_le _ R ih
  | parse s _ ih => exact parseBulk_size_le s _ ih
  | load file _ ih =>
    exact readLoop_le _ _ _ _ _ 0 (by omega)

/-- C6 witness: a freshly constructed list of capacity 2 is reachable and
satisfies the invariant, and appending to it cannot exceed the capacity. -/
theorem c6_size_invariant_witness :
    (BookList.construct 2).size ≤ (BookList.construct 2).capacity ∧
    ((BookList.construct 2).appendAll listP).size ≤ (BookList.construct 2).capacity :=
  ⟨c6_size_invariant.1 _ (Reachable.construct 2),
    c6_size_invariant.2 _ listP (by decide)⟩

/-- Dropping whitespace in front of a non-whitespace character is the
identity. -/
theorem skipWS_nws (c : Char) (l : List Char) (h : isWS c = false) :
    skipWS (c :: l) = c :: l := by
  simp [skipWS, List.dropWhile, h]

/-- Dropping whitespace walks past a space. -/
theorem skipWS_sp (l : List Char) : skipWS (' ' :: l) = skipWS l := rfl

/-- Reading one character off a stream that starts with a non-whitespace
character yields that character. -/
theorem readChar_nws (d : Char) (l : List Char) (c : Char) (h : isWS d = false) :
    readChar ⟨d :: l, false⟩ c = (⟨l, false⟩, d) := by
  simp [readChar, skipWS_nws d l h]

/-- The quoted-scan loop undoes the output escaping: scanning the escaped
form of l followed by the closing quote returns l (appended to the
accumulator) and leaves the rest of the stream untouched. -/
theorem qscan_esc (l : List Char) : ∀ rest acc : List Char,
    qscan (escList l ++ '"' :: rest) acc = (⟨rest, false⟩, acc.reverse ++ l) := by
  induction l with
  | nil =>
    intro rest acc
    rw [escList]
    rw [List.nil_append, qscan.eq_def]
    simp
  | cons c t ih =>
    intro rest acc
    by_cases hc : (c = '"' || c = '\\') = true
    · simp only [escList, escChar, hc, if_true, List.cons_append, List.append_assoc,
        List.nil_append]
      simp only [qscan, if_true, List.nil_append]
      rw [ih]
      simp
    · have hq : ¬ c = '"' := by
        intro hh; rw [hh] at hc; simp at hc
      have hb : ¬ c = '\\' := by
        intro hh; rw [hh] at hc; simp at hc
      simp only [escList, escChar, hc, if_false, List.cons_append, List.append_assoc,
        List.nil_append]
      rw [qscan.eq_def]
      simp [hb, hq]
      rw [ih]
      simp

/-- Reading a quoted field whose stream (after whitespace) starts with the
escaped rendering of l recovers exactly l. -/
theorem readQuoted_esc (s : IStr) (v : String) (l rest : List Char)
    (hf : s.fail = false)
    (hd : skipWS s.data = '"' :: (escList l ++ '"' :: rest)) :
    readQuoted s v = (⟨rest, false⟩, String.mk l) := by
  simp only [readQuoted, hf, Bool.false_eq_true, if_false, hd]
  simp [qscan_esc]

/-- Dropping whitespace in front of a rendered quoted field is the
identity. -/
theorem skipWS_quoteOut (f : String) (R : List Char) :
    skipWS (quoteOut f ++ R) = quoteOut f ++ R := by
  show skipWS ('"' :: ((escList f.data ++ ['"']) ++ R)) = _
  rw [skipWS_nws _ _ (by decide)]
  rfl

/-- Reading a quoted field off a stream that holds a rendered field
followed by anything recovers the original field. -/
theorem readQuoted_field (s : IStr) (v fld : String) (R : List Char)
    (hf : s.fail = false) (hd : skipWS s.data = quoteOut fld ++ R) :
    readQuoted s v = (⟨R, false⟩, fld) := by
  have hd2 : skipWS s.data = '"' :: (escList fld.data ++ '"' :: R) := by
    rw [hd]; simp [quoteOut, List.append_assoc]
  exact readQuoted_esc s v fld.data R hf hd2

/-- Reading the delimiter character off a stream that starts with the
output delimiter consumes the comma. -/
theorem readChar_delim (R : List Char) (c : Char) :
    readChar ⟨outDelim ++ R, false⟩ c = (⟨' ' :: ' ' :: R, false⟩, ',') := rfl

/-- Double extraction only depends on the stream after leading
whitespace. -/
theorem readDouble_ws (l1 l2 : List Char) (v : Dec) (h : skipWS l1 = skipWS l2) :
    readDouble ⟨l1, false⟩ v = readDouble ⟨l2, false⟩ v := by
  simp only [readDouble, h, Bool.false_eq_true, if_false]

/-- writeBookL in right-associated form. -/
theorem writeBookL_assoc (b : Book) :
    writeBookL b = quoteOut b.isbn ++ (outDelim ++ (quoteOut b.title ++
      (outDelim ++ (quoteOut b.author ++ (outDelim ++ (priceOut b.price).data))))) := by
  simp [writeBookL, List.append_assoc]

/-- Main round-trip lemma: Book extraction applied to a formatted record
recovers the three string fields exactly and hands the formatted price text
to double extraction; the result is committed exactly when that price
extraction succeeds. -/
theorem readBook_write (b v : Book) :
    readBook ⟨writeBookL b, false⟩ v =
      ((readDouble ⟨(priceOut b.price).data, false⟩ ⟨0, 0⟩).1,
        if (readDouble ⟨(priceOut b.price).data, false⟩ ⟨0, 0⟩).1.fail then v
        else ⟨b.isbn, b.title, b.author,
          (readDouble ⟨(priceOut b.price).data, false⟩ ⟨0, 0⟩).2⟩) := by
  have e1 : readQuoted ⟨writeBookL b, false⟩ "" =
      (⟨outDelim ++ (quoteOut b.title ++ (outDelim ++ (quoteOut b.author ++
        (outDelim ++ (priceOut b.price).data)))), false⟩, b.isbn) :=
    readQuoted_field _ _ _ _ rfl (by rw [writeBookL_assoc]; exact skipWS_quoteOut _ _)
  have e3 : readQuoted ⟨' ' :: ' ' :: (quoteOut b.title ++ (outDelim ++
      (quoteOut b.author ++ (outDelim ++ (priceOut b.price).data)))), false⟩ "" =
      (⟨outDelim ++ (quoteOut b.author ++ (outDelim ++ (priceOut b.price).data)),
        false⟩, b.title) :=
    readQuoted_field _ _ _ _ rfl
      (by rw [skipWS_sp, skipWS_sp]; exact skipWS_quoteOut _ _)
  have e5 : readQuoted ⟨' ' :: ' ' :: (quoteOut b.author ++ (outDelim ++
      (priceOut b.price).data)), false⟩ "" =
      (⟨outDelim ++ (priceOut b.price).data, false⟩, b.author) :=
    readQuoted_field _ _ _ _ rfl
      (by rw [skipWS_sp, skipWS_sp]; exact skipWS_quoteOut _ _)
  have e7 : readDouble ⟨' ' :: ' ' :: (priceOut b.price).data, false⟩
      (⟨0, 0⟩ : Dec) = readDouble ⟨(priceOut b.price).data, false⟩ ⟨0, 0⟩ :=
    readDouble_ws _ _ _ (by rw [skipWS_sp, skipWS_sp])
  simp only [readBook, e1, readChar_delim, e3, e5, e7]
  split <;> rfl

/-- C4 counterexample: the book bBig with price 1000000.5 formats its price
as 1e+06 (default precision 6), which parses back to 1000000; the round
trip parses successfully but the result is not equal to the original book
under Book's tolerance-based equality (the prices differ by 0.5). -/
theorem c4_roundtrip_counterexample :
    (readBook ⟨writeBookL bBig, false⟩ default).1.fail = false ∧
    bookEq (readBook ⟨writeBookL bBig, false⟩ default).2 bBig = false := by decide

/-- C4 amended: for every Book whose price survives default precision-6
numeric formatting to within EPSILON (priceRT), parsing the formatted
record succeeds and yields a Book equal to the original under Book's
equality: the three string fields round-trip exactly for arbitrary
contents, and the price lands within EPSILON. -/
theorem c4_roundtrip_amended (b : Book) (h : priceRT b.price = true) :
    (readBook ⟨writeBookL b, false⟩ default).1.fail = false ∧
    bookEq (readBook ⟨writeBookL b, false⟩ default).2 b = true := by
  rw [priceRT, Bool.and_eq_true, Bool.not_eq_true'] at h
  rw [readBook_write b default]
  refine ⟨by simp [h.1], ?_⟩
  rw [if_neg (by simp [h.1])]
  simp [bookEq, h.2]

/-- C4 witness: the round trip at a book whose fields hold quotes,
backslashes and spaces, with money price 9.99. -/
theorem c4_roundtrip_amended_witness :
    priceRT bW.price = true ∧
    bookEq (readBook ⟨writeBookL bW, false⟩ default).2 bW = true :=
  ⟨by decide, (c4_roundtrip_amended bW (by decide)).2⟩

/-- Appending on the right preserves an escaped-quote occurrence. -/
theorem containsEsc_append_right (l m : List Char) (h : containsEsc l) :
    containsEsc (l ++ m) := by
  obtain ⟨u, v, rfl⟩ := h
  exact ⟨u, v ++ m, by simp⟩

/-- Appending on the left preserves an escaped-quote occurrence. -/
theorem containsEsc_append_left (l m : List Char) (h : containsEsc m) :
    containsEsc (l ++ m) := by
  obtain ⟨u, v, rfl⟩ := h
  exact ⟨l ++ u, v, by simp⟩

/-- Consing preserves an escaped-quote occurrence. -/
theorem containsEsc_cons (c : Char) (l : List Char) (h : containsEsc l) :
    containsEsc (c :: l) := by
  obtain ⟨u, v, rfl⟩ := h
  exact ⟨c :: u, v, rfl⟩

/-- Escaping a list that contains a double quote produces the two-character
sequence backslash, quote. -/
theorem escList_containsEsc (l : List Char) (h : '"' ∈ l) :
    containsEsc (escList l) := by
  induction l with
  | nil => cases h
  | cons c t ih =>
    rcases List.mem_cons.mp h with hc | hm
    · refine ⟨[], escList t, ?_⟩
      rw [← hc]
      simp [escList, escChar]
    · exact containsEsc_append_left _ _ (ih hm)

/-- A rendered field whose content holds a double quote holds the escaped
pair. -/
theorem quoteOut_containsEsc (f : String) (h : '"' ∈ f.data) :
    containsEsc (quoteOut f) :=
  containsEsc_cons _ _ (containsEsc_append_right _ _ (escList_containsEsc _ h))

/-- C8 amended: format renders each string field double-quoted, but an
embedded double quote is escaped by a preceding backslash (std::quoted's
convention), not by doubling: whenever the isbn, title or author contains
a double quote, the formatted record contains the backslash-quote pair;
and re-parsing the first rendered field recovers the isbn exactly. -/
theorem c8_backslash_escaping (b : Book) :
    ('"' ∈ b.isbn.data → containsEsc (writeBookL b)) ∧
    ('"' ∈ b.title.data → containsEsc (writeBookL b)) ∧
    ('"' ∈ b.author.data → containsEsc (writeBookL b)) ∧
    (readQuoted ⟨writeBookL b, false⟩ "").2 = b.isbn := by
  refine ⟨fun h => ?_, fun h => ?_, fun h => ?_, ?_⟩
  · rw [writeBookL_assoc]
    exact containsEsc_append_right _ _ (quoteOut_containsEsc _ h)
  · rw [writeBookL_assoc]
    exact containsEsc_append_left _ _ (containsEsc_append_left _ _
      (containsEsc_append_right _ _ (quoteOut_containsEsc _ h)))
  · rw [writeBookL_assoc]
    exact containsEsc_append_left _ _ (containsEsc_append_left _ _
      (containsEsc_append_left _ _ (containsEsc_append_left _ _
        (containsEsc_append_right _ _ (quoteOut_containsEsc _ h)))))
  · rw [readQuoted_field ⟨writeBookL b, false⟩ "" b.isbn _ rfl
      (by rw [writeBookL_assoc]; exact skipWS_quoteOut _ _)]

/-- C8 counterexample: formatting the book bQ, whose isbn holds an embedded
double quote, does not produce the quote-doubled rendering the claim
describes; the actual output escapes the quote with a backslash. -/
theorem c8_doubling_counterexample :
    writeBookL bQ ≠ writeBookSpecL bQ ∧
    writeBookL bQ = "\"A\\\"B\",  \"T\",  \"U\",  5".data := by decide

/-- C8 witness: the escaped pair occurs in the format of bQ. -/
theorem c8_backslash_escaping_witness : containsEsc (writeBookL bQ) :=
  (c8_backslash_escaping bQ).1 (by decide)

/-- C9 counterexample: a record whose first comma is missing (the fields
otherwise well-formed) parses successfully: the unvalidated delimiter read
consumes the quote of the next field, the quoted extractions fall back to
plain token extraction, and the price parses as .99, so no failure is
marked; the fields are silently misinterpreted. -/
theorem c9_missing_comma_counterexample :
    (readBook ⟨"\"A\" \"B\", \"C\", 9.99".data, false⟩ default).1.fail = false ∧
    (readBook ⟨"\"A\" \"B\", \"C\", 9.99".data, false⟩ default).2 =
      ⟨"A", "B\",", "C\",", ⟨99, 2⟩⟩ := by decide

/-- C9 amended: Book parse reads one arbitrary character where each comma
delimiter belongs, without validating it: for every non-whitespace
character d used in place of all three commas, the record parses
successfully with the same fields; a missing or wrong delimiter therefore
does not by itself mark failure (failure only arises when a field
extraction itself fails). -/
theorem c9_delimiter_not_validated (d : Char) (h : isWS d = false) :
    readBook ⟨recC9 d, false⟩ default = (⟨[], false⟩, ⟨"A", "B", "C", ⟨999, 2⟩⟩) := by
  have e1 : readQuoted ⟨recC9 d, false⟩ "" =
      (⟨d :: '"' :: 'B' :: '"' :: d :: '"' :: 'C' :: '"' :: d ::
        '9' :: '.' :: '9' :: '9' :: [], false⟩, "A") := rfl
  have e2 := readChar_nws d ('"' :: 'B' :: '"' :: d :: '"' :: 'C' :: '"' :: d ::
    '9' :: '.' :: '9' :: '9' :: []) ',' h
  have e3 : readQuoted ⟨'"' :: 'B' :: '"' :: d :: '"' :: 'C' :: '"' :: d ::
      '9' :: '.' :: '9' :: '9' :: [], false⟩ "" =
      (⟨d :: '"' :: 'C' :: '"' :: d :: '9' :: '.' :: '9' :: '9' :: [], false⟩, "B") := rfl
  have e4 := readChar_nws d ('"' :: 'C' :: '"' :: d :: '9' :: '.' :: '9' :: '9' :: []) d h
  have e5 : readQuoted ⟨'"' :: 'C' :: '"' :: d :: '9' :: '.' :: '9' :: '9' :: [],
      false⟩ "" = (⟨d :: '9' :: '.' :: '9' :: '9' :: [], false⟩, "C") := rfl
  have e6 := readChar_nws d ('9' :: '.' :: '9' :: '9' :: []) d h
  have e7 : readDouble ⟨'9' :: '.' :: '9' :: '9' :: [], false⟩ (⟨0, 0⟩ : Dec) =
      (⟨[], false⟩, ⟨999, 2⟩) := by decide
  simp only [readBook, e1, e2, e3, e4, e5, e6, e7]
  simp

/-- C9 witness: the record parses with semicolons in place of commas. -/
theorem c9_delimiter_not_validated_witness :
    isWS ';' = false ∧
    readBook ⟨recC9 ';', false⟩ default = (⟨[], false⟩, ⟨"A", "B", "C", ⟨999, 2⟩⟩) :=
  ⟨by decide, c9_delimiter_not_validated ';' (by decide)⟩
